import Mathlib

/-!
Verification of `nt8_status_complete.py`.

A shallow embedding of the log-line status-extraction pipeline of
`nt8_status_complete.py`: the compiled default pattern table, Python
`re.search` / `re.match` semantics (leftmost match, first-alternative
preference, greedy/lazy quantifiers, named capture groups, word
boundaries), `parse_with_patterns`, `fill_missing_fields`, the inline
instrument validator, and the per-line reconciliation step of
`run_strategy_status_monitor`, together with `statuses_to_json` and
`build_initial_statuses`.

Strings are modelled over their character sequences; the embedding
treats the ASCII behaviour of Python's `str.lower`, `str.strip`, `\w`,
`\s` and `\d` (log lines produced by the monitored application are
ASCII).  Machine floats, file I/O, SMTP and HTTP are outside the
embedded core.  Code that may raise in Python (the `m.group(k)` lookup
of a named capture group) is embedded in `Except`; the pure views are
proved equal to the `Except` versions.
-/

/-! ## Character helpers (ASCII behaviour of Python `str` predicates) -/

/-- ASCII decimal digit, Python `\d` on ASCII text. -/
def isDigitChar (c : Char) : Bool := 48 ≤ c.toNat && c.toNat ≤ 57

/-- ASCII upper-case letter `A`–`Z` (the only letters accepted by the
instrument validator's character classes). -/
def isUpperChar (c : Char) : Bool := 65 ≤ c.toNat && c.toNat ≤ 90

/-- ASCII lower-case letter `a`–`z`. -/
def isLowerChar (c : Char) : Bool := 97 ≤ c.toNat && c.toNat ≤ 122

/-- ASCII letter. -/
def isLetterChar (c : Char) : Bool := isUpperChar c || isLowerChar c

/-- Python `\w` on ASCII text: letter, digit or underscore. -/
def isWordChar (c : Char) : Bool := isLetterChar c || isDigitChar c || c = '_'

/-- Python `\s` on ASCII text: space, tab, newline, carriage return,
vertical tab, form feed. -/
def isSpaceChar (c : Char) : Bool :=
  c = ' ' || c = '\t' || c = '\n' || c = '\r' || c.toNat = 11 || c.toNat = 12

/-- Python `.` without `DOTALL`: any character except newline. -/
def isDotChar (c : Char) : Bool := c != '\n'

/-- The apostrophe character quoting strategy names in the log patterns. -/
def quoteChar : Char := Char.ofNat 39

/-- ASCII behaviour of Python `str.lower` on one character. -/
def pyLowerChar (c : Char) : Char :=
  if isUpperChar c then Char.ofNat (c.toNat + 32) else c

/-- Python `line.lower()`: the lower-cased line every pattern is matched against. -/
def pyLower (s : String) : String := String.mk (s.toList.map pyLowerChar)

/-- Strip characters satisfying `p` from both ends of a character list
(Python `str.strip`). -/
def pyStripChars (p : Char → Bool) (l : List Char) : List Char :=
  ((l.dropWhile p).reverse.dropWhile p).reverse

/-- Python `str.strip(chars)` as a `String` operation. -/
def pyStripWith (p : Char → Bool) (s : String) : String :=
  String.mk (pyStripChars p s.toList)

/-- Python `str.strip()` (whitespace strip), as applied to every captured
group value. -/
def pyStripWs (s : String) : String := pyStripWith isSpaceChar s

/-- The punctuation set of the "sanity trims" in `fill_missing_fields`:
`" :;,-[]()"`. -/
def isTrimPunct (c : Char) : Bool :=
  c = ' ' || c = ':' || c = ';' || c = ',' || c = '-' ||
  c = '[' || c = ']' || c = '(' || c = ')'

/-- Trim `status[k].strip(" :;,-[]()")`. -/
def pyStripPunct (s : String) : String := pyStripWith isTrimPunct s

/-! ## A small regex core

Compiled patterns are embedded as syntax trees; `matchRE` implements the
backtracking search order of CPython `re`: concatenation, leftmost
alternative first, greedy quantifiers prefer longer matches, lazy
quantifiers prefer shorter ones, `\b` is a word boundary, `$` matches at
the end of the subject or just before a final newline.  Counted repeats
`{m,n}` are desugared into concatenation and nested greedy options. -/

/-- Regex syntax: character classes are predicates, capture groups carry
their Python group name. -/
inductive RE where
  | eps : RE
  | cls (p : Char → Bool) : RE
  | cat (a b : RE) : RE
  | alt (a b : RE) : RE
  | opt (a : RE) : RE
  | starL (a : RE) : RE
  | starG (a : RE) : RE
  | group (n : String) (a : RE) : RE
  | wordB : RE
  | eol : RE

/-- Is position `i` of `s` on a word character (`false` outside the string)? -/
def isWordAt (s : List Char) (i : Nat) : Bool :=
  match s.get? i with
  | some c => isWordChar c
  | none => false

/-- Python `\b`: the characters on the two sides of position `i` disagree
about being word characters. -/
def wordBoundaryAt (s : List Char) (i : Nat) : Bool :=
  (if i = 0 then false else isWordAt s (i - 1)) != isWordAt s i

/-- Python `$` (no `MULTILINE`): end of subject, or just before a final
newline. -/
def atEol (s : List Char) (i : Nat) : Bool :=
  i = s.length || (i + 1 = s.length && s.get? i == some '\n')

/-- Capture store: group name with start and stop positions into the
subject.  The most recent entry for a name is its current value. -/
abbrev Caps := List (String × Nat × Nat)

/-- Backtracking matcher in continuation-passing style.  `matchRE fuel r s
pos caps k` attempts `r` at position `pos` of `s` and hands every
successful end position to `k`, in CPython's preference order; the first
success of `k` is the overall result.  The fuel bounds the nesting depth
of attempts; `reFuel` below always suffices for the embedded patterns. -/
def matchRE : Nat → RE → List Char → Nat → Caps →
    (Nat → Caps → Option (Nat × Caps)) → Option (Nat × Caps)
  | 0, _, _, _, _, _ => none
  | Nat.succ fuel, r, s, pos, caps, k =>
    match r with
    | RE.eps => k pos caps
    | RE.cls p =>
      match s.get? pos with
      | some c => if p c then k (pos + 1) caps else none
      | none => none
    | RE.cat a b =>
      matchRE fuel a s pos caps (fun q cps => matchRE fuel b s q cps k)
    | RE.alt a b =>
      match matchRE fuel a s pos caps k with
      | some res => some res
      | none => matchRE fuel b s pos caps k
    | RE.opt a =>
      match matchRE fuel a s pos caps k with
      | some res => some res
      | none => k pos caps
    | RE.starL a =>
      match k pos caps with
      | some res => some res
      | none =>
        matchRE fuel a s pos caps (fun q cps =>
          if pos < q then matchRE fuel (RE.starL a) s q cps k else none)
    | RE.starG a =>
      match matchRE fuel a s pos caps (fun q cps =>
          if pos < q then matchRE fuel (RE.starG a) s q cps k else none) with
      | some res => some res
      | none => k pos caps
    | RE.group n a =>
      matchRE fuel a s pos caps (fun q cps => k q ((n, pos, q) :: cps))
    | RE.wordB => if wordBoundaryAt s pos then k pos caps else none
    | RE.eol => if atEol s pos then k pos caps else none

/-- Fuel that dominates the attempt depth of every embedded pattern on a
subject of the given length. -/
def reFuel (s : List Char) : Nat := 400 * (s.length + 2) + 4000

/-- A successful match: start position, end position and captures. -/
structure RMatch where
  mstart : Nat
  mstop : Nat
  caps : Caps
deriving DecidableEq, Repr

/-- Scan start positions left to right (`re.search`). -/
def searchLoop : Nat → RE → List Char → Nat → Option RMatch
  | 0, _, _, _ => none
  | Nat.succ n, r, s, pos =>
    match matchRE (reFuel s) r s pos [] (fun q cps => some (q, cps)) with
    | some (e, cps) => some ⟨pos, e, cps⟩
    | none => if pos < s.length then searchLoop n r s (pos + 1) else none

/-- Python `re.search(pat, s)`: leftmost match, or `none`. -/
def reSearch (r : RE) (s : List Char) : Option RMatch :=
  searchLoop (s.length + 1) r s 0

/-- Python `re.match(pat, s)` as a Boolean: does the pattern match at position 0? -/
def pyMatchB (r : RE) (s : String) : Bool :=
  (matchRE (reFuel s.toList) r s.toList 0 []
    (fun q cps => some (q, cps))).isSome

/-- The named groups declared by a pattern (`m.groupdict()` keys). -/
def declaredGroups : RE → List String
  | RE.eps => []
  | RE.cls _ => []
  | RE.cat a b => declaredGroups a ++ declaredGroups b
  | RE.alt a b => declaredGroups a ++ declaredGroups b
  | RE.opt a => declaredGroups a
  | RE.starL a => declaredGroups a
  | RE.starG a => declaredGroups a
  | RE.group n a => n :: declaredGroups a
  | RE.wordB => []
  | RE.eol => []

/-- Positions recorded for a participating group, most recent first. -/
def capLookup (caps : Caps) (k : String) : Option (Nat × Nat) :=
  match caps.find? (fun e => decide (e.1 = k)) with
  | some e => some e.2
  | none => none

/-- The substring of the subject between two positions. -/
def sliceStr (s : List Char) (i j : Nat) : String :=
  String.mk ((s.drop i).take (j - i))

/-- Lookup `m.group(k)` for a participating group: the captured slice of the
subject; `none` when the group did not participate in the match. -/
def mGroup (s : List Char) (m : RMatch) (k : String) : Option String :=
  match capLookup m.caps k with
  | some (i, j) => some (sliceStr s i j)
  | none => none

/-! ## Pattern combinators -/

/-- Concatenate a pattern list. -/
def reSeq (l : List RE) : RE := l.foldr RE.cat RE.eps

/-- Ordered alternation of a pattern list (empty list never matches). -/
def reAltList : List RE → RE
  | [] => RE.cls (fun _ => false)
  | [a] => a
  | a :: rest => RE.alt a (reAltList rest)

/-- A literal character. -/
def litChar (c : Char) : RE := RE.cls (fun x => x = c)

/-- A literal character under `re.IGNORECASE` (ASCII case folding). -/
def litCharCI (c : Char) : RE := RE.cls (fun x => pyLowerChar x = pyLowerChar c)

/-- A case-sensitive literal word. -/
def lit (w : String) : RE := reSeq (w.toList.map litChar)

/-- A literal word under `re.IGNORECASE`. -/
def litCI (w : String) : RE := reSeq (w.toList.map litCharCI)

/-- Greedy `+`. -/
def rePlus (a : RE) : RE := RE.cat a (RE.starG a)

/-- Exactly `n` copies, `{n}`. -/
def reN : Nat → RE → RE
  | 0, _ => RE.eps
  | Nat.succ n, a => RE.cat a (reN n a)

/-- At most `n` copies, greedy (the upper part of `{m,n}`). -/
def reUpTo : Nat → RE → RE
  | 0, _ => RE.eps
  | Nat.succ n, a => RE.opt (RE.cat a (reUpTo n a))

/-- Greedy counted repeat `{lo,hi}`. -/
def reRange (lo hi : Nat) (a : RE) : RE := RE.cat (reN lo a) (reUpTo (hi - lo) a)

/-- Whitespace run `\s+`. -/
def wsPlus : RE := rePlus (RE.cls isSpaceChar)

/-- Pattern `.*?`: the lazy filler between anchor words of the patterns. -/
def lazyDots : RE := RE.starL (RE.cls isDotChar)

/-! ## The compiled default pattern table

Each definition mirrors one regex literal of `DEFAULT_PATTERNS` in
`nt8_status_complete.py`.  The enable/disable patterns and the field
extractors are compiled with `re.IGNORECASE`, so their character classes
and literals are case-folded; the three instrument-validator regexes
(`_RE_FUT_MMMYY`, `_RE_FUT_MMYY`, `_RE_SYMBOL`) are compiled without
flags and are case-sensitive. -/

/-- Class `[^']` — any character other than the name-quoting apostrophe. -/
def clsNotQuote : RE := RE.cls (fun x => x != quoteChar)

/-- Class `[A-Z0-9]` under `IGNORECASE`. -/
def clsSymCI : RE := RE.cls (fun c => isLetterChar c || isDigitChar c)

/-- Class `[A-Z]` under `IGNORECASE`. -/
def clsAlphaCI : RE := RE.cls isLetterChar

/-- Class `\d`. -/
def clsDigit : RE := RE.cls isDigitChar

/-- Class `[A-Za-z0-9_\-\.]` — the unquoted-name class. -/
def clsNameChar : RE :=
  RE.cls (fun c => isLetterChar c || isDigitChar c || c = '_' || c = '-' || c = '.')

/-- Class `[\w\s\-\.\#]` — the connection/account value class. -/
def clsConnChar : RE :=
  RE.cls (fun c => isWordChar c || isSpaceChar c || c = '-' || c = '.' || c = '#')

/-- Group body of `(?P<connection>[\w\s\-\.\#]+)`. -/
def connPlus : RE := rePlus clsConnChar

/-- Months `(?:JAN|FEB|MAR|APR|MAY|JUN|JUL|AUG|SEP|OCT|NOV|DEC)` under `IGNORECASE`. -/
def monthsCI : RE :=
  reAltList (["jan", "feb", "mar", "apr", "may", "jun",
              "jul", "aug", "sep", "oct", "nov", "dec"].map litCI)

/-- Shape `[A-Z0-9]{1,6}(?:\s+[A-Z]{3}\d{2})?` — the instrument shape captured by
the primary enable/disable patterns. -/
def instCoreCI : RE :=
  RE.cat (reRange 1 6 clsSymCI)
    (RE.opt (reSeq [wsPlus, reN 3 clsAlphaCI, reN 2 clsDigit]))

/-- Enable pattern 1:
`\benabling\s+ninjascript\s+strategy\s+'(?P<name>[^']+)'`. -/
def patE1 : RE :=
  reSeq [RE.wordB, litCI "enabling", wsPlus, litCI "ninjascript", wsPlus,
         litCI "strategy", wsPlus, litChar quoteChar,
         RE.group "name" (rePlus clsNotQuote), litChar quoteChar]

/-- Enable pattern 2:
`strategy\s+'(?P<name>[^']+)'.*?\bon\b\s+(?P<instrument>[A-Z0-9]{1,6}(?:\s+[A-Z]{3}\d{2})?)\b.*?\benabled\b.*?(?:connection|account)\s+(?P<connection>[\w\s\-\.\#]+)`. -/
def patE2 : RE :=
  reSeq [litCI "strategy", wsPlus, litChar quoteChar,
         RE.group "name" (rePlus clsNotQuote), litChar quoteChar,
         lazyDots, RE.wordB, litCI "on", RE.wordB, wsPlus,
         RE.group "instrument" instCoreCI, RE.wordB,
         lazyDots, RE.wordB, litCI "enabled", RE.wordB, lazyDots,
         RE.alt (litCI "connection") (litCI "account"), wsPlus,
         RE.group "connection" connPlus]

/-- Enable pattern 3:
`\benabled\b.*?strategy\s+'(?P<name>[^']+)'.*?\bfor\b\s+(?P<instrument>...)\b.*?(?:via|on|connection)\s+(?P<connection>[\w\s\-\.\#]+)`. -/
def patE3 : RE :=
  reSeq [RE.wordB, litCI "enabled", RE.wordB, lazyDots,
         litCI "strategy", wsPlus, litChar quoteChar,
         RE.group "name" (rePlus clsNotQuote), litChar quoteChar,
         lazyDots, RE.wordB, litCI "for", RE.wordB, wsPlus,
         RE.group "instrument" instCoreCI, RE.wordB, lazyDots,
         reAltList [litCI "via", litCI "on", litCI "connection"], wsPlus,
         RE.group "connection" connPlus]

/-- Enable pattern 4 (loose fallback):
`strategy\s+(?P<name>[A-Za-z0-9_\-\.]+).*?\benabled\b(?:.*?(?P<instrument>...))?(?:.*?(?:connection|via)\s+(?P<connection>...))?`. -/
def patE4 : RE :=
  reSeq [litCI "strategy", wsPlus, RE.group "name" (rePlus clsNameChar),
         lazyDots, RE.wordB, litCI "enabled", RE.wordB,
         RE.opt (RE.cat lazyDots (RE.group "instrument" instCoreCI)),
         RE.opt (reSeq [lazyDots, RE.alt (litCI "connection") (litCI "via"),
                        wsPlus, RE.group "connection" connPlus])]

/-- Disable pattern 1:
`\bdisabling\s+ninjascript\s+strategy\s+'(?P<name>[^']+)'`. -/
def patD1 : RE :=
  reSeq [RE.wordB, litCI "disabling", wsPlus, litCI "ninjascript", wsPlus,
         litCI "strategy", wsPlus, litChar quoteChar,
         RE.group "name" (rePlus clsNotQuote), litChar quoteChar]

/-- Disable pattern 2 (mirror of enable pattern 2 with `disabled`). -/
def patD2 : RE :=
  reSeq [litCI "strategy", wsPlus, litChar quoteChar,
         RE.group "name" (rePlus clsNotQuote), litChar quoteChar,
         lazyDots, RE.wordB, litCI "on", RE.wordB, wsPlus,
         RE.group "instrument" instCoreCI, RE.wordB,
         lazyDots, RE.wordB, litCI "disabled", RE.wordB, lazyDots,
         RE.alt (litCI "connection") (litCI "account"), wsPlus,
         RE.group "connection" connPlus]

/-- Disable pattern 3 (mirror of enable pattern 3 with `disabled`). -/
def patD3 : RE :=
  reSeq [RE.wordB, litCI "disabled", RE.wordB, lazyDots,
         litCI "strategy", wsPlus, litChar quoteChar,
         RE.group "name" (rePlus clsNotQuote), litChar quoteChar,
         lazyDots, RE.wordB, litCI "for", RE.wordB, wsPlus,
         RE.group "instrument" instCoreCI, RE.wordB, lazyDots,
         reAltList [litCI "via", litCI "on", litCI "connection"], wsPlus,
         RE.group "connection" connPlus]

/-- Disable pattern 4:
`\bdisabled\b.*?strategy\s+'(?P<name>[^']+)'(?:.*?(?P<instrument>...))?(?:.*?(?:connection|via|on)\s+(?P<connection>...))?`. -/
def patD4 : RE :=
  reSeq [RE.wordB, litCI "disabled", RE.wordB, lazyDots,
         litCI "strategy", wsPlus, litChar quoteChar,
         RE.group "name" (rePlus clsNotQuote), litChar quoteChar,
         RE.opt (RE.cat lazyDots (RE.group "instrument" instCoreCI)),
         RE.opt (reSeq [lazyDots,
                        reAltList [litCI "connection", litCI "via", litCI "on"],
                        wsPlus, RE.group "connection" connPlus])]

/-- Disable pattern 5 (loose fallback, mirror of enable pattern 4). -/
def patD5 : RE :=
  reSeq [litCI "strategy", wsPlus, RE.group "name" (rePlus clsNameChar),
         lazyDots, RE.wordB, litCI "disabled", RE.wordB,
         RE.opt (RE.cat lazyDots (RE.group "instrument" instCoreCI)),
         RE.opt (reSeq [lazyDots, RE.alt (litCI "connection") (litCI "via"),
                        wsPlus, RE.group "connection" connPlus])]

/-- Name extractor 1: `strategy\s+'(?P<name>[^']+)'`. -/
def patExtName1 : RE :=
  reSeq [litCI "strategy", wsPlus, litChar quoteChar,
         RE.group "name" (rePlus clsNotQuote), litChar quoteChar]

/-- Name extractor 2: `strategy\s+(?P<name>[A-Za-z0-9_\-\.]+)`. -/
def patExtName2 : RE :=
  reSeq [litCI "strategy", wsPlus, RE.group "name" (rePlus clsNameChar)]

/-- Shape `[A-Z]{1,6}\s+(?:JAN|...|DEC)\s?\d{2}` (extractor instrument shape). -/
def extInstMMMYY : RE :=
  reSeq [reRange 1 6 clsAlphaCI, wsPlus, monthsCI,
         RE.opt (RE.cls isSpaceChar), reN 2 clsDigit]

/-- Shape `[A-Z]{1,6}\s+\d{2}-\d{2}` (extractor instrument shape). -/
def extInstMMYY : RE :=
  reSeq [reRange 1 6 clsAlphaCI, wsPlus, reN 2 clsDigit, litChar '-',
         reN 2 clsDigit]

/-- Extractor `\bon\s+(?P<instrument>[A-Z]{1,6}\s+(?:JAN|...)\s?\d{2})\b`. -/
def patExtInstOn1 : RE :=
  reSeq [RE.wordB, litCI "on", wsPlus, RE.group "instrument" extInstMMMYY,
         RE.wordB]

/-- Extractor `\bon\s+(?P<instrument>[A-Z]{1,6}\s+\d{2}-\d{2})\b`. -/
def patExtInstOn2 : RE :=
  reSeq [RE.wordB, litCI "on", wsPlus, RE.group "instrument" extInstMMYY,
         RE.wordB]

/-- Extractor `\bfor\s+(?P<instrument>[A-Z]{1,6}\s+(?:JAN|...)\s?\d{2})\b`. -/
def patExtInstFor1 : RE :=
  reSeq [RE.wordB, litCI "for", wsPlus, RE.group "instrument" extInstMMMYY,
         RE.wordB]

/-- Extractor `\bfor\s+(?P<instrument>[A-Z]{1,6}\s+\d{2}-\d{2})\b`. -/
def patExtInstFor2 : RE :=
  reSeq [RE.wordB, litCI "for", wsPlus, RE.group "instrument" extInstMMYY,
         RE.wordB]

/-- Extractor `\bon\s+(?P<instrument>[A-Z]{1,6})\b` (single-symbol fallback). -/
def patExtInstOn3 : RE :=
  reSeq [RE.wordB, litCI "on", wsPlus,
         RE.group "instrument" (reRange 1 6 clsAlphaCI), RE.wordB]

/-- Extractor `\bfor\s+(?P<instrument>[A-Z]{1,6})\b` (single-symbol fallback). -/
def patExtInstFor3 : RE :=
  reSeq [RE.wordB, litCI "for", wsPlus,
         RE.group "instrument" (reRange 1 6 clsAlphaCI), RE.wordB]

/-- Extractor `(?:connection|via)\s+(?P<connection>[\w\s\-\.\#]+)`. -/
def patExtConn : RE :=
  reSeq [RE.alt (litCI "connection") (litCI "via"), wsPlus,
         RE.group "connection" connPlus]

/-- Extractor `(?:account)\s+(?P<account>[\w\s\-\.\#]+)`. -/
def patExtAccount : RE :=
  reSeq [litCI "account", wsPlus, RE.group "account" connPlus]

/-- The pattern-set shape consumed by the core: ordered enable patterns,
ordered disable patterns and per-field fallback extractors. -/
structure PatternSet where
  enabled : List RE
  disabled : List RE
  extName : List RE
  extInstrument : List RE
  extConnection : List RE
  extAccount : List RE

/-- The compiled `DEFAULT_PATTERNS` table. -/
def DEFAULT_PATTERNS : PatternSet where
  enabled := [patE1, patE2, patE3, patE4]
  disabled := [patD1, patD2, patD3, patD4, patD5]
  extName := [patExtName1, patExtName2]
  extInstrument := [patExtInstOn1, patExtInstOn2, patExtInstFor1,
                    patExtInstFor2, patExtInstOn3, patExtInstFor3]
  extConnection := [patExtConn]
  extAccount := [patExtAccount]

/-! ## The instrument validator regexes (no `IGNORECASE`) -/

/-- Class `[A-Z]` — validator classes are case-sensitive. -/
def clsUpper : RE := RE.cls isUpperChar

/-- Months `(?:JAN|...|DEC)` in the validator: upper case only. -/
def monthsUC : RE :=
  reAltList (["JAN", "FEB", "MAR", "APR", "MAY", "JUN",
              "JUL", "AUG", "SEP", "OCT", "NOV", "DEC"].map lit)

/-- Validator `_RE_FUT_MMMYY = ^[A-Z]{1,6}\s+(?:JAN|...|DEC)\s?\d{2}$`
(the leading `^` is the anchoring `re.match` already provides). -/
def reFutMMMYY : RE :=
  reSeq [reRange 1 6 clsUpper, wsPlus, monthsUC,
         RE.opt (RE.cls isSpaceChar), reN 2 clsDigit, RE.eol]

/-- Validator `_RE_FUT_MMYY = ^[A-Z]{1,6}\s+\d{2}-\d{2}$`, e.g. `ES 03-26`. -/
def reFutMMYY : RE :=
  reSeq [reRange 1 6 clsUpper, wsPlus, reN 2 clsDigit, litChar '-',
         reN 2 clsDigit, RE.eol]

/-- Validator `_RE_SYMBOL = ^[A-Z]{1,6}$` — equities/forex symbol. -/
def reSymbol : RE := reSeq [reRange 1 6 clsUpper, RE.eol]

/-- The disjunction tested by `fill_missing_fields` and again by the live
loop: `_RE_FUT_MMMYY.match(x) or _RE_FUT_MMYY.match(x) or _RE_SYMBOL.match(x)`. -/
def instrumentOk (s : String) : Bool :=
  pyMatchB reFutMMMYY s || pyMatchB reFutMMYY s || pyMatchB reSymbol s

/-- The instrument validation step as a function: clear a non-empty token
that matches none of the three shapes, keep everything else. -/
def validate_instrument (s : String) : String :=
  if s != "" && !(instrumentOk s) then "" else s

/-! ## `parse_with_patterns` -/

/-- The partial status dictionary produced by `parse_with_patterns` and
completed by `fill_missing_fields`: `enabled` is always set by a match;
a string field is `none` when its key is absent from the dict and
`some v` when present (possibly with `v = ""`). -/
structure PStatus where
  enabled : Bool
  name : Option String := none
  instrument : Option String := none
  connection : Option String := none
  account : Option String := none
deriving DecidableEq, Repr

/-- Python truthiness of `status.get(field)`: present and non-empty. -/
def truthy (o : Option String) : Bool := (o.getD "") != ""

/-- Lookup `m.group(k)` including its failure mode: raises (here: `Except.error`)
when `k` is not a group of the pattern, returns the optional capture
otherwise. -/
def pyGroupE (low : List Char) (r : RE) (m : RMatch) (k : String) :
    Except String (Option String) :=
  if (declaredGroups r).contains k then Except.ok (mGroup low m k)
  else Except.error "no such group"

/-- One entry of the dict comprehension
`{k: (m.group(k) or "").strip() for k in (...) if k in m.groupdict()}`:
`none` when the guard `k in m.groupdict()` fails (key absent). -/
def capFieldE (low : List Char) (r : RE) (m : RMatch) (k : String) :
    Except String (Option String) :=
  if (declaredGroups r).contains k then do
    let g ← pyGroupE low r m k
    pure (some (pyStripWs (g.getD "")))
  else pure none

/-- Pure view of `capFieldE` (proved equal below: the guarded group access
never raises). -/
def capField (low : List Char) (r : RE) (m : RMatch) (k : String) :
    Option String :=
  if (declaredGroups r).contains k then
    some (pyStripWs ((mGroup low m k).getD ""))
  else none

/-- Truncation `gd["name"].split("/", 1)[0]`: the prefix before the first slash. -/
def pyNormName (s : String) : String :=
  String.mk (s.toList.takeWhile (fun c => c != '/'))

/-- Normalization `if "name" in gd and "/" in gd["name"]: gd["name"] = gd["name"].split("/", 1)[0]`. -/
def normNameField : Option String → Option String
  | some s => if s.toList.contains '/' then some (pyNormName s) else some s
  | none => none

/-- The status dict built from a successful match of one enable/disable
pattern (`pol` is the polarity: `true` inside the enabled loop). -/
def statusOfMatchE (pol : Bool) (low : List Char) (r : RE) (m : RMatch) :
    Except String PStatus := do
  let n ← capFieldE low r m "name"
  let i ← capFieldE low r m "instrument"
  let c ← capFieldE low r m "connection"
  pure { enabled := pol, name := normNameField n, instrument := i,
         connection := c, account := none }

/-- Pure view of `statusOfMatchE`. -/
def statusOfMatch (pol : Bool) (low : List Char) (r : RE) (m : RMatch) :
    PStatus :=
  { enabled := pol
    name := normNameField (capField low r m "name")
    instrument := capField low r m "instrument"
    connection := capField low r m "connection"
    account := none }

/-- One `for pat in patterns.get(...)` loop of `parse_with_patterns`:
return on the first pattern whose search succeeds. -/
def tryPatternsE (pol : Bool) (low : List Char) :
    List RE → Except String (Option PStatus)
  | [] => pure none
  | r :: rest =>
    match reSearch r low with
    | some m => do
      let st ← statusOfMatchE pol low r m
      pure (some st)
    | none => tryPatternsE pol low rest

/-- Pure view of `tryPatternsE`. -/
def tryPatterns (pol : Bool) (low : List Char) : List RE → Option PStatus
  | [] => none
  | r :: rest =>
    match reSearch r low with
    | some m => some (statusOfMatch pol low r m)
    | none => tryPatterns pol low rest

/-- Embedding of `parse_with_patterns(line, patterns)` with the group access embedded in
`Except`: lower-case the line, try the enable patterns in order, then the
disable patterns in order; `(False, {})` when nothing matches (the empty
dict reads as `enabled = false` downstream). -/
def parse_with_patternsE (line : String) (ps : PatternSet) :
    Except String (Bool × PStatus) := do
  let low := (pyLower line).toList
  match ← tryPatternsE true low ps.enabled with
  | some st => pure (true, st)
  | none =>
    match ← tryPatternsE false low ps.disabled with
    | some st => pure (true, st)
    | none => pure (false, { enabled := false })

/-- Pure view of `parse_with_patternsE`. -/
def parse_with_patterns (line : String) (ps : PatternSet) : Bool × PStatus :=
  let low := (pyLower line).toList
  match tryPatterns true low ps.enabled with
  | some st => (true, st)
  | none =>
    match tryPatterns false low ps.disabled with
    | some st => (true, st)
    | none => (false, { enabled := false })

/-! ## `fill_missing_fields` -/

/-- The inner extractor loop for one field: first pattern whose search
matches and declares the field wins (`if m and field in m.groupdict()`);
a matching pattern without the field falls through to the next one. -/
def firstHitE (low : List Char) (field : String) :
    List RE → Except String (Option String)
  | [] => pure none
  | r :: rest =>
    match reSearch r low with
    | some m =>
      if (declaredGroups r).contains field then do
        let g ← pyGroupE low r m field
        pure (some (g.getD ""))
      else firstHitE low field rest
    | none => firstHitE low field rest

/-- Pure view of `firstHitE`. -/
def firstHit (low : List Char) (field : String) : List RE → Option String
  | [] => none
  | r :: rest =>
    match reSearch r low with
    | some m =>
      if (declaredGroups r).contains field then some ((mGroup low m field).getD "")
      else firstHit low field rest
    | none => firstHit low field rest

/-- Fill one field: keep a present non-empty value, otherwise take the
first extractor hit, stripped of whitespace. -/
def fillFieldE (low : List Char) (field : String) (cur : Option String)
    (pats : List RE) : Except String (Option String) :=
  if truthy cur then pure cur
  else do
    match ← firstHitE low field pats with
    | some v => pure (some (pyStripWs v))
    | none => pure cur

/-- Pure view of `fillFieldE`. -/
def fillField (low : List Char) (field : String) (cur : Option String)
    (pats : List RE) : Option String :=
  if truthy cur then cur
  else
    match firstHit low field pats with
    | some v => some (pyStripWs v)
    | none => cur

/-- The "sanity trims": `status[k] = status[k].strip(" :;,-[]()")` for a
present field. -/
def trimField : Option String → Option String
  | some s => some (pyStripPunct s)
  | none => none

/-- Embedding of `fill_missing_fields(line, status, patterns)` with group access in
`Except`: extractor fallbacks per field, punctuation trims, then the
instrument validation that clears invalid tokens to `""`. -/
def fill_missing_fieldsE (line : String) (st : PStatus) (ps : PatternSet) :
    Except String PStatus := do
  let low := (pyLower line).toList
  let n ← fillFieldE low "name" st.name ps.extName
  let i ← fillFieldE low "instrument" st.instrument ps.extInstrument
  let c ← fillFieldE low "connection" st.connection ps.extConnection
  let a ← fillFieldE low "account" st.account ps.extAccount
  let s2 : PStatus :=
    { enabled := st.enabled, name := trimField n, instrument := trimField i,
      connection := trimField c, account := trimField a }
  if truthy s2.instrument && !(instrumentOk (s2.instrument.getD "")) then
    pure { s2 with instrument := some "" }
  else pure s2

/-- Pure view of `fill_missing_fieldsE`. -/
def fill_missing_fields (line : String) (st : PStatus) (ps : PatternSet) :
    PStatus :=
  let low := (pyLower line).toList
  let s2 : PStatus :=
    { enabled := st.enabled
      name := trimField (fillField low "name" st.name ps.extName)
      instrument := trimField (fillField low "instrument" st.instrument ps.extInstrument)
      connection := trimField (fillField low "connection" st.connection ps.extConnection)
      account := trimField (fillField low "account" st.account ps.extAccount) }
  if truthy s2.instrument && !(instrumentOk (s2.instrument.getD "")) then
    { s2 with instrument := some "" }
  else s2

/-! ## The Status Table and the per-line reconciliation step -/

/-- Record `StrategyStatus` — the dataclass stored per `(name, instrument)` key. -/
structure StrategyStatus where
  name : String
  instrument : String
  enabled : Bool
  connection : String
  account : String
deriving DecidableEq, Repr

/-- Table key: `(name, instrument or "")`. -/
abbrev StatusKey := String × String

/-- The in-memory `statuses` dict in insertion order. -/
abbrev StatusTable := List (StatusKey × StrategyStatus)

/-- Dict read `statuses.get(key)`. -/
def tableFind : StatusTable → StatusKey → Option StrategyStatus
  | [], _ => none
  | e :: rest, k => if e.1 = k then some e.2 else tableFind rest k

/-- Dict write `statuses[key] = v`: replace in place when the key exists, append
otherwise (Python dict assignment). -/
def tableInsert : StatusTable → StatusKey → StrategyStatus → StatusTable
  | [], k, v => [(k, v)]
  | e :: rest, k, v =>
    if e.1 = k then (k, v) :: rest else e :: tableInsert rest k v

/-- Does `pre` start `l`? (helper for Python's `in` on strings). -/
def startsList : List Char → List Char → Bool
  | [], _ => true
  | _ :: _, [] => false
  | a :: as, b :: bs => a = b && startsList as bs

/-- Python `needle in hay` for strings, over character lists. -/
def containsSub (needle : List Char) : List Char → Bool
  | [] => startsList needle []
  | b :: bs => startsList needle (b :: bs) || containsSub needle bs

/-- Filter `requires_any(text, subs)`: no filter configured, or some configured
substring occurs (case-insensitively) in the line. -/
def requires_any (text : String) (subs : List String) : Bool :=
  if subs.isEmpty then true
  else subs.any (fun sub => containsSub (pyLower sub).toList (pyLower text).toList)

/-- The per-line field extraction of `run_strategy_status_monitor` (and of
`build_initial_statuses`, which runs the same steps): parse, complete,
require a non-empty name, re-validate the instrument; `none` when the
line is skipped. -/
def extract_recordE (line : String) (ps : PatternSet) :
    Except String (Option StrategyStatus) := do
  let pr ← parse_with_patternsE line ps
  if !pr.1 then pure none
  else do
    let st ← fill_missing_fieldsE line pr.2 ps
    if !(truthy st.name) then pure none
    else
      let name := st.name.getD ""
      let instrument0 := st.instrument.getD ""
      let connection := st.connection.getD ""
      let enabled := st.enabled
      let account := st.account.getD ""
      let instrument :=
        if instrument0 != "" && !(instrumentOk instrument0) then "" else instrument0
      pure (some { name := name, instrument := instrument, enabled := enabled,
                   connection := connection, account := account })

/-- Pure view of `extract_recordE`. -/
def extract_record (line : String) (ps : PatternSet) : Option StrategyStatus :=
  let pr := parse_with_patterns line ps
  if !pr.1 then none
  else
    let st := fill_missing_fields line pr.2 ps
    if !(truthy st.name) then none
    else
      let name := st.name.getD ""
      let instrument0 := st.instrument.getD ""
      let connection := st.connection.getD ""
      let enabled := st.enabled
      let account := st.account.getD ""
      let instrument :=
        if instrument0 != "" && !(instrumentOk instrument0) then "" else instrument0
      some { name := name, instrument := instrument, enabled := enabled,
             connection := connection, account := account }

/-- The change test of the live loop: no previous record, or `enabled`,
`connection` or `instrument` differs (`account` deliberately not
compared). -/
def changedFrom (prev : Option StrategyStatus) (r : StrategyStatus) : Bool :=
  match prev with
  | none => true
  | some p =>
    p.enabled != r.enabled || p.connection != r.connection ||
    p.instrument != r.instrument

/-- One iteration of the live tail loop of `run_strategy_status_monitor`
on a non-empty table state: skip empty and filtered lines, extract a
record, diff against the table, and on change store the record and emit
(change notice, snapshot write, publish).  The `Except.error` branch is
the `except` clause at the loop boundary: the line is logged and skipped,
the table is unchanged.  Returns the new table and whether an update was
emitted. -/
def processLine (ps : PatternSet) (ms : List String) (st : StatusTable)
    (line : String) : StatusTable × Bool :=
  if line == "" then (st, false)
  else if !ms.isEmpty && !(requires_any line ms) then (st, false)
  else
    match extract_recordE line ps with
    | Except.error _ => (st, false)
    | Except.ok none => (st, false)
    | Except.ok (some r) =>
      let key : StatusKey := (r.name, if r.instrument == "" then "" else r.instrument)
      let prev := tableFind st key
      if changedFrom prev r then (tableInsert st key r, true) else (st, false)

/-- One line of the startup backfill (`build_initial_statuses`): same
pipeline, but every extracted record is stored unconditionally. -/
def seedLine (ps : PatternSet) (ms : List String) (st : StatusTable)
    (line : String) : StatusTable :=
  if line == "" then st
  else if !ms.isEmpty && !(requires_any line ms) then st
  else
    match extract_recordE line ps with
    | Except.error _ => st
    | Except.ok none => st
    | Except.ok (some r) =>
      tableInsert st (r.name, if r.instrument == "" then "" else r.instrument) r

/-- Backfill `build_initial_statuses` over the decoded tail lines of the newest log
file. -/
def build_initial_statuses (ps : PatternSet) (ms : List String)
    (lines : List String) : StatusTable :=
  lines.foldl (seedLine ps ms) []

/-! ## Snapshot serialization -/

/-- The sort key of `statuses_to_json`: `(s.name.lower(), s.instrument.lower())`. -/
def statusSortKey (s : StrategyStatus) : String × String :=
  (pyLower s.name, pyLower s.instrument)

/-- Code-point comparison of characters (Python compares strings by code
point). -/
def charLtB (a b : Char) : Bool := a.toNat < b.toNat

/-- Lexicographic `<` on character lists: Python string comparison. -/
def listLtB : List Char → List Char → Bool
  | [], [] => false
  | [], _ :: _ => true
  | _ :: _, [] => false
  | a :: as, b :: bs => charLtB a b || ((a == b) && listLtB as bs)

/-- Python `s < t` on strings. -/
def pyStrLt (a b : String) : Bool := listLtB a.toList b.toList

/-- Python `s <= t` on strings. -/
def pyStrLE (a b : String) : Bool := pyStrLt a b || a == b

/-- Python tuple comparison on the sort keys (lexicographic). -/
def sortKeyLE (a b : StrategyStatus) : Prop :=
  pyStrLt (statusSortKey a).1 (statusSortKey b).1 = true ∨
    ((statusSortKey a).1 = (statusSortKey b).1 ∧
      pyStrLE (statusSortKey a).2 (statusSortKey b).2 = true)

instance : DecidableRel sortKeyLE := fun a b =>
  inferInstanceAs (Decidable (pyStrLt (statusSortKey a).1 (statusSortKey b).1 = true ∨
    ((statusSortKey a).1 = (statusSortKey b).1 ∧
      pyStrLE (statusSortKey a).2 (statusSortKey b).2 = true)))

/-- The `strategies` list of the snapshot: the table's records sorted by
`(name.lower(), instrument.lower())` (the `updated_at` timestamp is
ambient I/O and not modelled). -/
def statuses_to_json (st : StatusTable) : List StrategyStatus :=
  List.insertionSort sortKeyLE (st.map (fun e => e.2))


/-! ## Basic lemmas about the string helpers -/

theorem toNat_ofNat_char (n : Nat) (h : n < 55296) : (Char.ofNat n).toNat = n := by
  have hv : n.isValidChar := Or.inl h
  simp [Char.ofNat, hv, Char.ofNatAux, Char.toNat, UInt32.ofNat', UInt32.toNat]

theorem isUpperChar_pyLowerChar (c : Char) : isUpperChar (pyLowerChar c) = false := by
  unfold pyLowerChar
  by_cases h : isUpperChar c = true
  · rw [if_pos h]
    unfold isUpperChar at h ⊢
    have h1 : 65 ≤ c.toNat ∧ c.toNat ≤ 90 := by simpa using h
    have hlt : c.toNat + 32 < 55296 := by omega
    rw [toNat_ofNat_char _ hlt]
    simp only [Bool.and_eq_false_iff, decide_eq_false_iff_not]
    omega
  · rw [if_neg (by simpa using h)]
    simpa using h

theorem mem_pyLower (s : String) (c : Char) (hc : c ∈ (pyLower s).toList) :
    isUpperChar c = false := by
  unfold pyLower at hc
  have hc2 : c ∈ s.toList.map pyLowerChar := hc
  obtain ⟨a, _, rfl⟩ := List.mem_map.mp hc2
  exact isUpperChar_pyLowerChar a

theorem mem_sliceStr (s : List Char) (i j : Nat) (c : Char)
    (hc : c ∈ (sliceStr s i j).toList) : c ∈ s := by
  have h1 : c ∈ (s.drop i).take (j - i) := hc
  exact (List.drop_sublist i s).subset ((List.take_sublist (j - i) (s.drop i)).subset h1)

theorem mem_pyStripChars (p : Char → Bool) (l : List Char) (c : Char)
    (hc : c ∈ pyStripChars p l) : c ∈ l := by
  unfold pyStripChars at hc
  rw [List.mem_reverse] at hc
  have h2 := (List.dropWhile_sublist p).subset hc
  rw [List.mem_reverse] at h2
  exact (List.dropWhile_sublist p).subset h2

theorem mem_pyStripWith (p : Char → Bool) (s : String) (c : Char)
    (hc : c ∈ (pyStripWith p s).toList) : c ∈ s.toList :=
  mem_pyStripChars p s.toList c hc

theorem mem_mGroup (low : List Char) (m : RMatch) (k : String) (v : String)
    (hv : mGroup low m k = some v) (c : Char) (hc : c ∈ v.toList) : c ∈ low := by
  unfold mGroup at hv
  cases h : capLookup m.caps k with
  | none => rw [h] at hv; cases hv
  | some ij =>
    obtain ⟨i, j⟩ := ij
    rw [h] at hv
    cases hv
    exact mem_sliceStr low i j c hc

theorem mem_capField (low : List Char) (r : RE) (m : RMatch) (k v : String)
    (hv : capField low r m k = some v) (c : Char) (hc : c ∈ v.toList) : c ∈ low := by
  unfold capField at hv
  by_cases hg : (declaredGroups r).contains k = true
  · rw [if_pos hg] at hv
    cases hv
    have h1 : c ∈ ((mGroup low m k).getD "").toList := mem_pyStripWith _ _ c hc
    cases hm : mGroup low m k with
    | none => rw [hm] at h1; simp at h1
    | some u => rw [hm] at h1; exact mem_mGroup low m k u hm c h1
  · rw [if_neg (by simpa using hg)] at hv
    cases hv

theorem getD_empty_of_not_truthy (o : Option String) (h : truthy o = false) :
    o.getD "" = "" := by
  unfold truthy at h
  simpa using h

/-! ## Status Table dictionary lemmas -/

theorem tableFind_tableInsert_self (st : StatusTable) (k : StatusKey)
    (v : StrategyStatus) : tableFind (tableInsert st k v) k = some v := by
  induction st with
  | nil => simp [tableInsert, tableFind]
  | cons e rest ih =>
    by_cases h : e.1 = k
    · simp [tableInsert, h, tableFind]
    · simp [tableInsert, h, tableFind, ih]

theorem mem_tableInsert (st : StatusTable) (k : StatusKey) (v : StrategyStatus)
    (e : StatusKey × StrategyStatus) (he : e ∈ tableInsert st k v) :
    e ∈ st ∨ e = (k, v) := by
  induction st with
  | nil =>
    simp [tableInsert] at he
    right; exact he
  | cons a rest ih =>
    by_cases h : a.1 = k
    · simp only [tableInsert, if_pos h] at he
      rcases List.mem_cons.mp he with h1 | h1
      · right; exact h1
      · left; exact List.mem_cons_of_mem a h1
    · simp only [tableInsert, if_neg h] at he
      rcases List.mem_cons.mp he with h1 | h1
      · left; exact h1 ▸ List.mem_cons_self a rest
      · rcases ih h1 with h2 | h2
        · left; exact List.mem_cons_of_mem a h2
        · right; exact h2

/-! ## The `Except` pipeline never raises: equality with the pure views -/

theorem capFieldE_eq (low : List Char) (r : RE) (m : RMatch) (k : String) :
    capFieldE low r m k = Except.ok (capField low r m k) := by
  unfold capFieldE capField pyGroupE
  by_cases h : (declaredGroups r).contains k = true
  · rw [if_pos h, if_pos h, if_pos h]
    rfl
  · rw [if_neg h, if_neg h]
    rfl

theorem statusOfMatchE_eq (pol : Bool) (low : List Char) (r : RE) (m : RMatch) :
    statusOfMatchE pol low r m = Except.ok (statusOfMatch pol low r m) := by
  unfold statusOfMatchE statusOfMatch
  rw [capFieldE_eq, capFieldE_eq, capFieldE_eq]
  rfl

theorem tryPatternsE_eq (pol : Bool) (low : List Char) (pats : List RE) :
    tryPatternsE pol low pats = Except.ok (tryPatterns pol low pats) := by
  induction pats with
  | nil => rfl
  | cons r rest ih =>
    cases h : reSearch r low with
    | some m =>
      simp only [tryPatternsE, tryPatterns, h, statusOfMatchE_eq]
      rfl
    | none =>
      simp only [tryPatternsE, tryPatterns, h]
      exact ih

theorem parse_with_patternsE_eq (line : String) (ps : PatternSet) :
    parse_with_patternsE line ps = Except.ok (parse_with_patterns line ps) := by
  simp only [parse_with_patternsE, parse_with_patterns, tryPatternsE_eq]
  cases tryPatterns true (pyLower line).toList ps.enabled with
  | some st => rfl
  | none =>
    cases tryPatterns false (pyLower line).toList ps.disabled with
    | some st => rfl
    | none => rfl

theorem firstHitE_eq (low : List Char) (field : String) (pats : List RE) :
    firstHitE low field pats = Except.ok (firstHit low field pats) := by
  induction pats with
  | nil => rfl
  | cons r rest ih =>
    cases h : reSearch r low with
    | some m =>
      by_cases hg : (declaredGroups r).contains field = true
      · simp only [firstHitE, firstHit, h, pyGroupE, if_pos hg]
        rfl
      · simp only [firstHitE, firstHit, h, if_neg hg]
        exact ih
    | none =>
      simp only [firstHitE, firstHit, h]
      exact ih

theorem fillFieldE_eq (low : List Char) (field : String) (cur : Option String)
    (pats : List RE) :
    fillFieldE low field cur pats = Except.ok (fillField low field cur pats) := by
  unfold fillFieldE fillField
  by_cases h : truthy cur = true
  · rw [if_pos h, if_pos h]
    rfl
  · rw [if_neg h, if_neg h]
    simp only [firstHitE_eq]
    cases firstHit low field pats with
    | some v => rfl
    | none => rfl

theorem except_bind_ok {A B : Type} (a : A) (f : A → Except String B) :
    (Except.ok a >>= f) = f a := rfl

theorem except_pure_eq {A : Type} (a : A) : (pure a : Except String A) = Except.ok a := rfl

theorem fill_missing_fieldsE_eq (line : String) (st : PStatus) (ps : PatternSet) :
    fill_missing_fieldsE line st ps = Except.ok (fill_missing_fields line st ps) := by
  unfold fill_missing_fieldsE fill_missing_fields
  simp only [fillFieldE_eq, except_bind_ok, except_pure_eq]
  split <;> rfl

theorem extract_recordE_eq (line : String) (ps : PatternSet) :
    extract_recordE line ps = Except.ok (extract_record line ps) := by
  simp only [extract_recordE, extract_record, parse_with_patternsE_eq, except_bind_ok,
    except_pure_eq, fill_missing_fieldsE_eq]
  split <;> try rfl
  split <;> rfl

/-! ## First-required-class analysis of patterns -/

def reqFirst : RE → Option (Char → Bool)
  | RE.cls q => some q
  | RE.cat a _ => reqFirst a
  | RE.group _ a => reqFirst a
  | _ => none

theorem matchRE_none_of_reqFirst (r : RE) (q : Char → Bool) (s : List Char) (pos : Nat)
    (hr : reqFirst r = some q) (hs : ∀ c, s.get? pos = some c → q c = false) :
    ∀ (f : Nat) (caps : Caps) (k : Nat → Caps → Option (Nat × Caps)),
      matchRE f r s pos caps k = none := by
  induction r generalizing q with
  | cls p =>
    intro f caps k
    injection hr with hq
    subst hq
    cases f with
    | zero => rfl
    | succ f =>
      simp only [matchRE]
      cases hg : s.get? pos with
      | none => rfl
      | some c => simp [hs c hg]
  | cat a b iha _ =>
    intro f caps k
    cases f with
    | zero => rfl
    | succ f => exact iha q hr hs f caps _
  | group n a iha =>
    intro f caps k
    cases f with
    | zero => rfl
    | succ f => exact iha q hr hs f caps _
  | eps => cases hr
  | alt a b _ _ => cases hr
  | opt a _ => cases hr
  | starL a _ => cases hr
  | starG a _ => cases hr
  | wordB => cases hr
  | eol => cases hr

theorem pyMatchB_false_of_head (r : RE) (q : Char → Bool) (hr : reqFirst r = some q)
    (s : String) (c : Char) (hc : s.toList.get? 0 = some c) (hq : q c = false) :
    pyMatchB r s = false := by
  unfold pyMatchB
  rw [matchRE_none_of_reqFirst r q s.toList 0 hr
    (fun d hd => by rw [hc] at hd; cases hd; exact hq) _ _ _]
  rfl

theorem instrumentOk_false_of_head (s : String) (c : Char)
    (hc : s.toList.get? 0 = some c) (hp : isUpperChar c = false) :
    instrumentOk s = false := by
  unfold instrumentOk
  rw [pyMatchB_false_of_head reFutMMMYY isUpperChar rfl s c hc hp,
      pyMatchB_false_of_head reFutMMYY isUpperChar rfl s c hc hp,
      pyMatchB_false_of_head reSymbol isUpperChar rfl s c hc hp]
  rfl

/-! ## Character provenance: every capture is a slice of the searched line -/

theorem tryPatterns_instrument_chars (pol : Bool) (low : List Char) (pats : List RE)
    (st : PStatus) (hst : tryPatterns pol low pats = some st) (v : String)
    (hv : st.instrument = some v) (c : Char) (hc : c ∈ v.toList) : c ∈ low := by
  induction pats with
  | nil => cases hst
  | cons r rest ih =>
    cases h : reSearch r low with
    | some m =>
      simp only [tryPatterns, h] at hst
      cases hst
      exact mem_capField low r m "instrument" v hv c hc
    | none =>
      simp only [tryPatterns, h] at hst
      exact ih hst

theorem parse_instrument_chars (line : String) (ps : PatternSet) (v : String)
    (hv : (parse_with_patterns line ps).2.instrument = some v) (c : Char)
    (hc : c ∈ v.toList) : c ∈ (pyLower line).toList := by
  simp only [parse_with_patterns] at hv
  cases h1 : tryPatterns true (pyLower line).toList ps.enabled with
  | some st =>
    rw [h1] at hv
    exact tryPatterns_instrument_chars true _ ps.enabled st h1 v hv c hc
  | none =>
    rw [h1] at hv
    cases h2 : tryPatterns false (pyLower line).toList ps.disabled with
    | some st =>
      rw [h2] at hv
      exact tryPatterns_instrument_chars false _ ps.disabled st h2 v hv c hc
    | none =>
      rw [h2] at hv
      cases hv

theorem firstHit_chars (low : List Char) (field : String) (pats : List RE) (v : String)
    (hv : firstHit low field pats = some v) (c : Char) (hc : c ∈ v.toList) : c ∈ low := by
  induction pats with
  | nil => cases hv
  | cons r rest ih =>
    cases h : reSearch r low with
    | some m =>
      simp only [firstHit, h] at hv
      by_cases hg : (declaredGroups r).contains field = true
      · rw [if_pos hg] at hv
        cases hv
        cases hm : mGroup low m field with
        | none => rw [hm] at hc; simp at hc
        | some u =>
          rw [hm] at hc
          exact mem_mGroup low m field u hm c hc
      · rw [if_neg hg] at hv
        exact ih hv
    | none =>
      simp only [firstHit, h] at hv
      exact ih hv

theorem fillField_cases (low : List Char) (field : String) (cur : Option String)
    (pats : List RE) (w : String) (hw : fillField low field cur pats = some w) :
    cur = some w ∨ (∀ c ∈ w.toList, c ∈ low) := by
  unfold fillField at hw
  by_cases h : truthy cur = true
  · rw [if_pos h] at hw
    left; exact hw
  · rw [if_neg h] at hw
    cases hh : firstHit low field pats with
    | some u =>
      rw [hh] at hw
      cases hw
      right
      intro c hc
      exact firstHit_chars low field pats u hh c (mem_pyStripWith _ _ c hc)
    | none =>
      rw [hh] at hw
      left; exact hw

theorem toList_ne_nil_of_ne_empty (v : String) (h : v ≠ "") : v.toList ≠ [] := by
  intro hl
  apply h
  cases v with
  | mk d =>
    cases d with
    | nil => rfl
    | cons a l => cases hl

/-! ## The instrument field is always cleared (core of the case-folding bug) -/

theorem fill_instrument_getD_empty (line : String) (ps : PatternSet) :
    (fill_missing_fields line (parse_with_patterns line ps).2 ps).instrument.getD "" = "" := by
  have key : ∀ (v : String),
      trimField (fillField (pyLower line).toList "instrument"
        (parse_with_patterns line ps).2.instrument ps.extInstrument) = some v →
      v ≠ "" → instrumentOk v = false := by
    intro v hv hne
    have hchar : ∀ c ∈ v.toList, c ∈ (pyLower line).toList := by
      cases hf : fillField (pyLower line).toList "instrument"
          (parse_with_patterns line ps).2.instrument ps.extInstrument with
      | none => rw [hf] at hv; cases hv
      | some w =>
        rw [hf] at hv
        have hvw : v = pyStripPunct w := by
          injection hv with h1
          exact h1.symm
        intro c hc
        have hcw : c ∈ w.toList := mem_pyStripWith _ _ c (hvw ▸ hc)
        rcases fillField_cases _ _ _ _ w hf with hcur | hlow2
        · exact parse_instrument_chars line ps w hcur c hcw
        · exact hlow2 c hcw
    obtain ⟨c, hc0⟩ : ∃ c, v.toList.get? 0 = some c := by
      cases hl : v.toList with
      | nil => exact absurd hl (toList_ne_nil_of_ne_empty v hne)
      | cons a l => exact ⟨a, rfl⟩
    have hcmem : c ∈ v.toList := List.get?_mem hc0
    exact instrumentOk_false_of_head v c hc0 (mem_pyLower line c (hchar c hcmem))
  unfold fill_missing_fields
  dsimp only
  split
  · rfl
  · rename_i hcond
    cases htr : truthy (trimField (fillField (pyLower line).toList "instrument"
        (parse_with_patterns line ps).2.instrument ps.extInstrument)) with
    | false => exact getD_empty_of_not_truthy _ htr
    | true =>
      exfalso
      cases ht : trimField (fillField (pyLower line).toList "instrument"
          (parse_with_patterns line ps).2.instrument ps.extInstrument) with
      | none => rw [ht] at htr; cases htr
      | some v =>
        rw [ht] at htr
        have hne : v ≠ "" := by simpa [truthy] using htr
        have hok := key v ht hne
        apply hcond
        rw [ht, htr]
        simp [hok]

theorem extract_record_instrument (line : String) (ps : PatternSet) (r : StrategyStatus)
    (h : extract_record line ps = some r) : r.instrument = "" := by
  unfold extract_record at h
  dsimp only at h
  split at h
  · cases h
  · split at h
    · cases h
    · injection h with h1
      rw [← h1]
      show (if ((fill_missing_fields line (parse_with_patterns line ps).2 ps).instrument.getD "" != "") &&
          !(instrumentOk ((fill_missing_fields line (parse_with_patterns line ps).2 ps).instrument.getD "")) then ""
        else (fill_missing_fields line (parse_with_patterns line ps).2 ps).instrument.getD "") = ""
      rw [fill_instrument_getD_empty line ps]
      rfl

/-! ## Table invariant: only empty instruments are ever stored -/

def tableInstrumentsEmpty (st : StatusTable) : Prop :=
  ∀ e ∈ st, e.1.2 = "" ∧ e.2.instrument = ""

theorem processLine_preserves_empty (ps : PatternSet) (ms : List String)
    (st : StatusTable) (line : String) (hinv : tableInstrumentsEmpty st) :
    tableInstrumentsEmpty (processLine ps ms st line).1 := by
  unfold processLine
  split
  · exact hinv
  · split
    · exact hinv
    · rw [extract_recordE_eq]
      cases hE : extract_record line ps with
      | none => exact hinv
      | some r =>
        have hri : r.instrument = "" := extract_record_instrument line ps r hE
        have hkey : (if r.instrument == "" then "" else r.instrument) = "" := by
          rw [hri]; rfl
        dsimp only
        rw [hkey]
        split
        · unfold tableInstrumentsEmpty
          intro e he
          dsimp only at he
          rcases mem_tableInsert st (r.name, "") r e he with h1 | h1
          · exact hinv e h1
          · subst h1
            exact ⟨rfl, hri⟩
        · exact hinv

theorem seedLine_preserves_empty (ps : PatternSet) (ms : List String)
    (st : StatusTable) (line : String) (hinv : tableInstrumentsEmpty st) :
    tableInstrumentsEmpty (seedLine ps ms st line) := by
  unfold seedLine
  split
  · exact hinv
  · split
    · exact hinv
    · rw [extract_recordE_eq]
      cases hE : extract_record line ps with
      | none => exact hinv
      | some r =>
        have hri : r.instrument = "" := extract_record_instrument line ps r hE
        have hkey : (if r.instrument == "" then "" else r.instrument) = "" := by
          rw [hri]; rfl
        dsimp only
        rw [hkey]
        unfold tableInstrumentsEmpty
        intro e he
        rcases mem_tableInsert st (r.name, "") r e he with h1 | h1
        · exact hinv e h1
        · subst h1
          exact ⟨rfl, hri⟩

theorem build_initial_statuses_empty (ps : PatternSet) (ms : List String)
    (lines : List String) :
    tableInstrumentsEmpty (build_initial_statuses ps ms lines) := by
  unfold build_initial_statuses
  suffices h : ∀ st, tableInstrumentsEmpty st →
      tableInstrumentsEmpty (lines.foldl (seedLine ps ms) st) by
    exact h [] (by intro e he; cases he)
  induction lines with
  | nil => intro st h; exact h
  | cons l rest ih =>
    intro st h
    exact ih _ (seedLine_preserves_empty ps ms st l h)

/-! ## Ordering instances for the snapshot sort -/

theorem char_eq_of_toNat_eq (a b : Char) (h : a.toNat = b.toNat) : a = b := by
  apply Char.eq_of_val_eq
  apply UInt32.eq_of_toBitVec_eq
  apply BitVec.eq_of_toNat_eq
  exact h

theorem str_eq_of_toList_eq (a b : String) (h : a.toList = b.toList) : a = b := by
  cases a
  cases b
  exact congrArg String.mk h

theorem listLtB_trichotomy : ∀ as bs : List Char,
    listLtB as bs = true ∨ as = bs ∨ listLtB bs as = true := by
  intro as
  induction as with
  | nil =>
    intro bs
    cases bs with
    | nil => right; left; rfl
    | cons b bs => left; rfl
  | cons a as ih =>
    intro bs
    cases bs with
    | nil => right; right; rfl
    | cons b bs =>
      rcases Nat.lt_trichotomy a.toNat b.toNat with h | h | h
      · left
        simp [listLtB, charLtB, h]
      · have hab : a = b := char_eq_of_toNat_eq a b h
        subst hab
        rcases ih bs with h2 | h2 | h2
        · left; simp [listLtB, h2]
        · right; left; rw [h2]
        · right; right; simp [listLtB, h2]
      · right; right
        simp [listLtB, charLtB, h]

theorem listLtB_cons_iff (a b : Char) (as bs : List Char) :
    listLtB (a :: as) (b :: bs) = true ↔
      (a.toNat < b.toNat ∨ (a = b ∧ listLtB as bs = true)) := by
  simp [listLtB, charLtB]

theorem listLtB_trans : ∀ as bs cs : List Char,
    listLtB as bs = true → listLtB bs cs = true → listLtB as cs = true := by
  intro as
  induction as with
  | nil =>
    intro bs cs h1 h2
    cases bs with
    | nil => cases h1
    | cons b bs =>
      cases cs with
      | nil => cases h2
      | cons c cs => rfl
  | cons a as ih =>
    intro bs cs h1 h2
    cases bs with
    | nil => cases h1
    | cons b bs =>
      cases cs with
      | nil => cases h2
      | cons c cs =>
        rw [listLtB_cons_iff] at h1 h2 ⊢
        rcases h1 with h1 | ⟨h1, h1'⟩
        · rcases h2 with h2 | ⟨h2, h2'⟩
          · left; exact Nat.lt_trans h1 h2
          · left; exact h2 ▸ h1
        · rcases h2 with h2 | ⟨h2, h2'⟩
          · left; exact h1 ▸ h2
          · right; exact ⟨h1.trans h2, ih bs cs h1' h2'⟩

theorem pyStrLt_trans (a b c : String) (h1 : pyStrLt a b = true)
    (h2 : pyStrLt b c = true) : pyStrLt a c = true :=
  listLtB_trans a.toList b.toList c.toList h1 h2

theorem pyStrLE_or (a b : String) (h : pyStrLE a b = true) :
    pyStrLt a b = true ∨ a = b := by
  unfold pyStrLE at h
  rcases Bool.or_eq_true_iff.mp h with h1 | h1
  · left; exact h1
  · right; exact eq_of_beq h1

theorem pyStrLE_of_lt (a b : String) (h : pyStrLt a b = true) : pyStrLE a b = true := by
  unfold pyStrLE
  rw [h]
  rfl

theorem pyStrLE_refl (a : String) : pyStrLE a a = true := by
  unfold pyStrLE
  simp

theorem pyStrLE_trans (a b c : String) (h1 : pyStrLE a b = true)
    (h2 : pyStrLE b c = true) : pyStrLE a c = true := by
  rcases pyStrLE_or a b h1 with ha | ha
  · rcases pyStrLE_or b c h2 with hb | hb
    · exact pyStrLE_of_lt a c (pyStrLt_trans a b c ha hb)
    · exact hb ▸ pyStrLE_of_lt a b ha
  · exact ha ▸ h2

theorem pyStr_total (a b : String) :
    pyStrLt a b = true ∨ a = b ∨ pyStrLt b a = true := by
  rcases listLtB_trichotomy a.toList b.toList with h | h | h
  · left; exact h
  · right; left; exact str_eq_of_toList_eq a b h
  · right; right; exact h

theorem sortKeyLE_total : ∀ a b : StrategyStatus, sortKeyLE a b ∨ sortKeyLE b a := by
  intro a b
  unfold sortKeyLE
  rcases pyStr_total (statusSortKey a).1 (statusSortKey b).1 with h | h | h
  · left; left; exact h
  · rcases pyStr_total (statusSortKey a).2 (statusSortKey b).2 with h2 | h2 | h2
    · left; right; exact ⟨h, pyStrLE_of_lt _ _ h2⟩
    · left; right; exact ⟨h, h2 ▸ pyStrLE_refl _⟩
    · right; right; exact ⟨h.symm, pyStrLE_of_lt _ _ h2⟩
  · right; left; exact h

instance : IsTotal StrategyStatus sortKeyLE := ⟨sortKeyLE_total⟩

theorem sortKeyLE_trans : ∀ a b c : StrategyStatus,
    sortKeyLE a b → sortKeyLE b c → sortKeyLE a c := by
  intro a b c hab hbc
  unfold sortKeyLE at hab hbc ⊢
  rcases hab with h1 | ⟨h1, h1'⟩
  · rcases hbc with h2 | ⟨h2, h2'⟩
    · left; exact pyStrLt_trans _ _ _ h1 h2
    · left; exact h2 ▸ h1
  · rcases hbc with h2 | ⟨h2, h2'⟩
    · left; exact h1 ▸ h2
    · right; exact ⟨h1.trans h2, pyStrLE_trans _ _ _ h1' h2'⟩

instance : IsTrans StrategyStatus sortKeyLE := ⟨sortKeyLE_trans⟩

theorem statuses_to_json_sorted (st : StatusTable) :
    List.Sorted sortKeyLE (statuses_to_json st) := by
  unfold statuses_to_json
  exact List.sorted_insertionSort sortKeyLE (st.map (fun e => e.2))

theorem statuses_to_json_perm (st : StatusTable) :
    List.Perm (statuses_to_json st) (st.map (fun e => e.2)) := by
  unfold statuses_to_json
  exact List.perm_insertionSort sortKeyLE (st.map (fun e => e.2))

theorem statuses_to_json_instrument_empty (st : StatusTable)
    (hinv : tableInstrumentsEmpty st) (s : StrategyStatus)
    (hs : s ∈ statuses_to_json st) : s.instrument = "" := by
  have hs2 : s ∈ st.map (fun e => e.2) := (statuses_to_json_perm st).mem_iff.mp hs
  obtain ⟨e, he, rfl⟩ := List.mem_map.mp hs2
  exact (hinv e he).2

/-! ## First-match characterization of the pattern loops -/

theorem tryPatterns_pol (pol : Bool) (low : List Char) (pats : List RE) (st : PStatus)
    (h : tryPatterns pol low pats = some st) : st.enabled = pol := by
  induction pats with
  | nil => cases h
  | cons r rest ih =>
    cases hr : reSearch r low with
    | some m =>
      simp only [tryPatterns, hr] at h
      cases h
      rfl
    | none =>
      simp only [tryPatterns, hr] at h
      exact ih h

theorem tryPatterns_isSome_of_match (pol : Bool) (low : List Char) (pats : List RE)
    (r : RE) (hr : r ∈ pats) (hm : (reSearch r low).isSome = true) :
    (tryPatterns pol low pats).isSome = true := by
  induction pats with
  | nil => cases hr
  | cons a rest ih =>
    cases ha : reSearch a low with
    | some m => simp [tryPatterns, ha]
    | none =>
      simp only [tryPatterns, ha]
      rcases List.mem_cons.mp hr with h1 | h1
      · rw [h1, ha] at hm
        cases hm
      · exact ih h1

theorem tryPatterns_none_of_all (pol : Bool) (low : List Char) (pats : List RE)
    (h : ∀ r ∈ pats, reSearch r low = none) : tryPatterns pol low pats = none := by
  induction pats with
  | nil => rfl
  | cons a rest ih =>
    simp only [tryPatterns, h a (List.mem_cons_self a rest)]
    exact ih (fun r hr => h r (List.mem_cons_of_mem a hr))

theorem tryPatterns_first (pol : Bool) (low : List Char) (pats : List RE) (i : Nat)
    (h : i < pats.length) (m : RMatch)
    (hm : reSearch (pats.get ⟨i, h⟩) low = some m)
    (hj : ∀ j (hji : j < i), reSearch (pats.get ⟨j, Nat.lt_trans hji h⟩) low = none) :
    tryPatterns pol low pats = some (statusOfMatch pol low (pats.get ⟨i, h⟩) m) := by
  induction pats generalizing i with
  | nil => exact absurd h (Nat.not_lt_zero i)
  | cons a rest ih =>
    cases i with
    | zero =>
      simp only [List.get] at hm ⊢
      simp only [tryPatterns, hm]
    | succ n =>
      have ha : reSearch a low = none := hj 0 (Nat.succ_pos n)
      simp only [List.get] at ha hm ⊢
      simp only [tryPatterns, ha]
      exact ih n (Nat.lt_of_succ_lt_succ h) hm
        (fun j hji => hj (j + 1) (Nat.succ_lt_succ hji))

/-! ## Small facts about the reconciliation step -/

theorem extract_record_empty : extract_record "" DEFAULT_PATTERNS = none := by decide

theorem key_if_eq (r : StrategyStatus) :
    (if r.instrument == "" then "" else r.instrument) = r.instrument := by
  by_cases h : (r.instrument == "") = true
  · rw [if_pos h]
    exact (eq_of_beq h).symm
  · rw [if_neg h]

theorem changedFrom_iff (prev : Option StrategyStatus) (r : StrategyStatus) :
    changedFrom prev r = true ↔
      (prev = none ∨ ∃ p, prev = some p ∧
        (p.enabled ≠ r.enabled ∨ p.connection ≠ r.connection ∨
         p.instrument ≠ r.instrument)) := by
  cases prev with
  | none => simp [changedFrom]
  | some p => simp [changedFrom, bne_iff_ne, or_assoc]

theorem changedFrom_self (r : StrategyStatus) : changedFrom (some r) r = false := by
  simp [changedFrom]

/-! ## Name normalization facts -/

theorem normNameField_no_slash (o : Option String) (n : String)
    (h : normNameField o = some n) : n.toList.contains '/' = false := by
  cases o with
  | none => cases h
  | some s =>
    unfold normNameField at h
    dsimp only at h
    by_cases hc : s.toList.contains '/' = true
    · rw [if_pos hc] at h
      injection h with h1
      subst h1
      unfold pyNormName
      by_contra hcon
      rw [Bool.not_eq_false] at hcon
      have hm : '/' ∈ (String.mk (s.toList.takeWhile (fun c => c != '/'))).toList :=
        List.elem_iff.mp hcon
      have := List.mem_takeWhile_imp hm
      simp at this
    · rw [if_neg hc] at h
      injection h with h1
      subst h1
      exact Bool.not_eq_true _ ▸ hc

theorem tryPatterns_name_no_slash (pol : Bool) (low : List Char) (pats : List RE)
    (st : PStatus) (hst : tryPatterns pol low pats = some st) (n : String)
    (hn : st.name = some n) : n.toList.contains '/' = false := by
  induction pats with
  | nil => cases hst
  | cons r rest ih =>
    cases h : reSearch r low with
    | some m =>
      simp only [tryPatterns, h] at hst
      cases hst
      exact normNameField_no_slash _ n hn
    | none =>
      simp only [tryPatterns, h] at hst
      exact ih hst

theorem parse_name_no_slash (line : String) (ps : PatternSet) (n : String)
    (hn : (parse_with_patterns line ps).2.name = some n) :
    n.toList.contains '/' = false := by
  simp only [parse_with_patterns] at hn
  cases h1 : tryPatterns true (pyLower line).toList ps.enabled with
  | some st =>
    rw [h1] at hn
    exact tryPatterns_name_no_slash true _ ps.enabled st h1 n hn
  | none =>
    rw [h1] at hn
    cases h2 : tryPatterns false (pyLower line).toList ps.disabled with
    | some st =>
      rw [h2] at hn
      exact tryPatterns_name_no_slash false _ ps.disabled st h2 n hn
    | none =>
      rw [h2] at hn
      cases hn

/-! ## Concrete lines used by the claims -/

/-- The end-to-end scenario line of the spec. -/
def c1Line : String := "Strategy 'Alpha' on MGC DEC25 enabled on connection Sim101"

/-- The quoted-name-with-id line of the spec (enable pattern 1 shape). -/
def fooLine : String := "Enabling NinjaScript strategy 'Foo/12345'"

/-- A line matching both an enable fallback pattern and a disable fallback
pattern. -/
def c5Line : String := "strategy alpha enabled and disabled"

/-- A line matching both the strict quoted-name enable pattern 2 (name
`alpha`) and the loose fallback enable pattern 4 (name `beta`). -/
def c6Line : String :=
  "strategy 'alpha' on es enabled on connection sim101 and strategy beta enabled"

/-- C8: the instrument validator is a total function returning its argument
exactly when one of the three shape regexes matches and `""` otherwise; it
is idempotent; it accepts `MNQ DEC25`, `ES 03-26`, `AAPL` unchanged and
clears `2025`, `""`, `ABCDEFG`. -/
theorem C8_validator_shapes :
    (∀ s : String, validate_instrument s = if instrumentOk s then s else "") ∧
    (∀ s : String, validate_instrument (validate_instrument s) = validate_instrument s) ∧
    (validate_instrument "MNQ DEC25" = "MNQ DEC25" ∧
     validate_instrument "ES 03-26" = "ES 03-26" ∧
     validate_instrument "AAPL" = "AAPL" ∧
     validate_instrument "2025" = "" ∧
     validate_instrument "" = "" ∧
     validate_instrument "ABCDEFG" = "" ∧
     instrumentOk "MNQ DEC25" = true ∧ instrumentOk "ES 03-26" = true ∧
     instrumentOk "AAPL" = true ∧ instrumentOk "2025" = false ∧
     instrumentOk "" = false ∧ instrumentOk "ABCDEFG" = false) := by
  have hmain : ∀ s : String, validate_instrument s = if instrumentOk s then s else "" := by
    intro s
    unfold validate_instrument
    cases hok : instrumentOk s with
    | true => simp
    | false =>
      by_cases hs : s = ""
      · subst hs
        simp
      · simp [bne_iff_ne.mpr hs]
  refine ⟨hmain, ?_, ?_⟩
  · intro s
    rw [hmain (validate_instrument s), hmain s]
    cases hok : instrumentOk s with
    | true => simp [hok]
    | false =>
      simp only [if_false, Bool.false_eq_true]
      rw [ite_self]
  · refine ⟨by decide, by decide, by decide, by decide, by decide, by decide,
           by decide, by decide, by decide, by decide, by decide, by decide⟩

/-- C9: the snapshot lists the table's records sorted by
`(name.lower(), instrument.lower())`; on the two-entry example the
`alpha` record precedes the `Beta` record. -/
theorem C9_snapshot_sorted :
    (∀ st : StatusTable,
      List.Sorted sortKeyLE (statuses_to_json st) ∧
      List.Perm (statuses_to_json st) (st.map (fun e => e.2))) ∧
    statuses_to_json
        [(("Beta", "MNQ DEC25"), ⟨"Beta", "MNQ DEC25", true, "Sim101", ""⟩),
         (("alpha", "AAPL"), ⟨"alpha", "AAPL", false, "Playback101", ""⟩)] =
      [⟨"alpha", "AAPL", false, "Playback101", ""⟩,
       ⟨"Beta", "MNQ DEC25", true, "Sim101", ""⟩] := by
  refine ⟨fun st => ⟨statuses_to_json_sorted st, statuses_to_json_perm st⟩, ?_⟩
  decide

/-- C10: pattern matching and field extraction are total — the `Except`
embedding of the pipeline (where `m.group(k)` on an undeclared group
raises) always returns `Except.ok`, and equals the pure pipeline; a field
whose capture group is absent from the pattern is simply omitted from the
result (and concretely, enable pattern 1 yields no instrument or
connection); the loop's `except` clause is the `Except.error` branch of
`processLine`, which skips the line and keeps the table. -/
theorem C10_extraction_total :
    (∀ (line : String) (ps : PatternSet), ∃ v, parse_with_patternsE line ps = Except.ok v) ∧
    (∀ (line : String) (st : PStatus) (ps : PatternSet),
      ∃ v, fill_missing_fieldsE line st ps = Except.ok v) ∧
    (∀ (line : String) (ps : PatternSet),
      extract_recordE line ps = Except.ok (extract_record line ps)) ∧
    (∀ (low : List Char) (r : RE) (m : RMatch) (k : String),
      (declaredGroups r).contains k = false → capField low r m k = none) ∧
    ((parse_with_patterns fooLine DEFAULT_PATTERNS).2.instrument = none ∧
     (parse_with_patterns fooLine DEFAULT_PATTERNS).2.connection = none) := by
  refine ⟨?_, ?_, extract_recordE_eq, ?_, by decide, by decide⟩
  · intro line ps
    exact ⟨parse_with_patterns line ps, parse_with_patternsE_eq line ps⟩
  · intro line st ps
    exact ⟨fill_missing_fields line st ps, fill_missing_fieldsE_eq line st ps⟩
  · intro low r m k hk
    simp only [capField]
    rw [if_neg]
    intro hmem
    rw [hmem] at hk
    cases hk

theorem C10_extraction_total_witness :
    capField [] patE1 ⟨0, 0, []⟩ "instrument" = none :=
  C10_extraction_total.2.2.2.1 [] patE1 ⟨0, 0, []⟩ "instrument" (by decide)

/-! ## Step lemmas for the reconciliation loop -/

theorem processLine_empty_line (ps : PatternSet) (st : StatusTable) (line : String)
    (hl : (line == "") = true) : processLine ps [] st line = (st, false) := by
  unfold processLine
  rw [if_pos hl]

theorem processLine_skip (ps : PatternSet) (st : StatusTable) (line : String)
    (hl : (line == "") = false) (hr : extract_record line ps = none) :
    processLine ps [] st line = (st, false) := by
  unfold processLine
  rw [extract_recordE_eq, hr, hl]
  simp only [Bool.false_eq_true, if_false, List.isEmpty_nil, Bool.not_true,
    Bool.false_and]

theorem processLine_step (ps : PatternSet) (st : StatusTable) (line : String)
    (r : StrategyStatus) (hl : (line == "") = false)
    (hr : extract_record line ps = some r) :
    processLine ps [] st line =
      (if changedFrom (tableFind st (r.name, r.instrument)) r
        then (tableInsert st (r.name, r.instrument) r, true) else (st, false)) := by
  unfold processLine
  rw [extract_recordE_eq, hr, hl]
  simp only [Bool.false_eq_true, if_false, List.isEmpty_nil, Bool.not_true,
    Bool.false_and]
  rw [key_if_eq]

theorem line_ne_empty_of_extract (line : String) (r : StrategyStatus)
    (hr : extract_record line DEFAULT_PATTERNS = some r) : (line == "") = false := by
  cases hq : line == "" with
  | true =>
    have : line = "" := eq_of_beq hq
    rw [this, extract_record_empty] at hr
    cases hr
  | false => rfl

/-! ## Concrete claim theorems -/

/-- C1: on the spec's end-to-end line the pipeline does not produce
`{name "Alpha", instrument "MGC DEC25", enabled true, connection "Sim101"}`:
all captures are taken from the lower-cased line (name `alpha`, connection
`sim101`, raw instrument capture `mgc dec25`), and the case-sensitive
instrument validator then rejects the lower-cased token, so the stored
record is `{name "alpha", instrument "", enabled true, connection "sim101"}`. -/
theorem C1_end_to_end_actual :
    extract_record c1Line DEFAULT_PATTERNS =
      some { name := "alpha", instrument := "", enabled := true,
             connection := "sim101", account := "" } ∧
    (parse_with_patterns c1Line DEFAULT_PATTERNS).2.instrument = some "mgc dec25" ∧
    processLine DEFAULT_PATTERNS [] [] c1Line =
      ([(("alpha", ""), { name := "alpha", instrument := "", enabled := true,
                          connection := "sim101", account := "" })], true) := by
  refine ⟨by decide, by decide, by decide⟩

/-- C2: with the default pattern set the record leaving
`fill_missing_fields` always reads an empty instrument, every record the
loop extracts has instrument `""`, one loop step and the startup backfill
preserve the invariant that every table key is `(name, "")` with an empty
stored instrument, and every snapshot entry's instrument is `""`:
captures come from the lower-cased line while all three validator shapes
require an upper-case first letter. -/
theorem C2_instrument_always_empty :
    (∀ line : String,
      (fill_missing_fields line (parse_with_patterns line DEFAULT_PATTERNS).2
        DEFAULT_PATTERNS).instrument.getD "" = "") ∧
    (∀ (line : String) (r : StrategyStatus),
      extract_record line DEFAULT_PATTERNS = some r → r.instrument = "") ∧
    (∀ (ms : List String) (st : StatusTable) (line : String),
      tableInstrumentsEmpty st →
      tableInstrumentsEmpty (processLine DEFAULT_PATTERNS ms st line).1) ∧
    (∀ (ms : List String) (lines : List String),
      tableInstrumentsEmpty (build_initial_statuses DEFAULT_PATTERNS ms lines)) ∧
    (∀ (st : StatusTable) (s : StrategyStatus), tableInstrumentsEmpty st →
      s ∈ statuses_to_json st → s.instrument = "") := by
  refine ⟨fun line => fill_instrument_getD_empty line DEFAULT_PATTERNS,
          fun line r h => extract_record_instrument line DEFAULT_PATTERNS r h,
          fun ms st line h => processLine_preserves_empty DEFAULT_PATTERNS ms st line h,
          fun ms lines => build_initial_statuses_empty DEFAULT_PATTERNS ms lines,
          fun st s hinv hs => statuses_to_json_instrument_empty st hinv s hs⟩

theorem C2_instrument_always_empty_witness :
    ({ name := "alpha", instrument := "", enabled := true, connection := "sim101",
       account := "" } : StrategyStatus).instrument = "" ∧
    tableInstrumentsEmpty (processLine DEFAULT_PATTERNS [] [] c1Line).1 :=
  ⟨C2_instrument_always_empty.2.1 c1Line _ (by decide),
   C2_instrument_always_empty.2.2.1 [] [] c1Line
     (fun e he => absurd he (List.not_mem_nil e))⟩

/-- C3: when a line yields a record with a non-empty name, the loop emits
(and replaces the stored record) iff nothing is stored at
`(name, instrument)` or the stored record differs in `enabled`,
`connection` or `instrument`; otherwise (in particular when only
`account` differs) nothing is emitted and the table is untouched. -/
theorem C3_update_iff_changed :
    ∀ (st : StatusTable) (line : String) (r : StrategyStatus),
      extract_record line DEFAULT_PATTERNS = some r →
      (((processLine DEFAULT_PATTERNS [] st line).2 = true ↔
          (tableFind st (r.name, r.instrument) = none ∨
           ∃ p, tableFind st (r.name, r.instrument) = some p ∧
             (p.enabled ≠ r.enabled ∨ p.connection ≠ r.connection ∨
              p.instrument ≠ r.instrument))) ∧
       ((processLine DEFAULT_PATTERNS [] st line).2 = true →
          (processLine DEFAULT_PATTERNS [] st line).1 =
            tableInsert st (r.name, r.instrument) r) ∧
       ((processLine DEFAULT_PATTERNS [] st line).2 = false →
          (processLine DEFAULT_PATTERNS [] st line).1 = st) ∧
       (∀ p, tableFind st (r.name, r.instrument) = some p →
          p.enabled = r.enabled → p.connection = r.connection →
          p.instrument = r.instrument →
          processLine DEFAULT_PATTERNS [] st line = (st, false))) := by
  intro st line r hr
  have hline := line_ne_empty_of_extract line r hr
  have hstep := processLine_step DEFAULT_PATTERNS st line r hline hr
  have hiff := changedFrom_iff (tableFind st (r.name, r.instrument)) r
  rw [hstep]
  by_cases hch : changedFrom (tableFind st (r.name, r.instrument)) r = true
  · rw [if_pos hch]
    refine ⟨⟨fun _ => hiff.mp hch, fun _ => rfl⟩, fun _ => rfl, ?_, ?_⟩
    · intro hfalse
      exact Bool.noConfusion hfalse
    · intro p hp he hc hi
      exfalso
      rw [hp] at hch
      simp [changedFrom, he, hc, hi] at hch
  · rw [if_neg hch]
    refine ⟨⟨fun hfalse => Bool.noConfusion hfalse,
             fun hdisj => absurd (hiff.mpr hdisj) hch⟩,
            fun hfalse => Bool.noConfusion hfalse, fun _ => rfl,
            fun p hp he hc hi => rfl⟩

theorem C3_update_iff_changed_witness :
    (processLine DEFAULT_PATTERNS [] [] c1Line).2 = true :=
  ((C3_update_iff_changed [] c1Line
      { name := "alpha", instrument := "", enabled := true, connection := "sim101",
        account := "" } (by decide)).1).mpr (Or.inl rfl)

/-- C4 (amended): re-processing an identical line emits nothing on the
second pass and leaves the table unchanged, so two consecutive passes
emit exactly as many change events and snapshot writes as the first pass
alone (one if it changed anything, zero otherwise) — never two. -/
theorem C4_second_pass_silent :
    ∀ (st : StatusTable) (line : String),
      (processLine DEFAULT_PATTERNS []
        (processLine DEFAULT_PATTERNS [] st line).1 line).2 = false ∧
      (processLine DEFAULT_PATTERNS []
        (processLine DEFAULT_PATTERNS [] st line).1 line).1 =
        (processLine DEFAULT_PATTERNS [] st line).1 := by
  intro st line
  cases hl : line == "" with
  | true =>
    rw [processLine_empty_line DEFAULT_PATTERNS st line hl]
    rw [processLine_empty_line DEFAULT_PATTERNS st line hl]
    exact ⟨rfl, rfl⟩
  | false =>
    cases hE : extract_record line DEFAULT_PATTERNS with
    | none =>
      rw [processLine_skip DEFAULT_PATTERNS st line hl hE]
      rw [processLine_skip DEFAULT_PATTERNS st line hl hE]
      exact ⟨rfl, rfl⟩
    | some r =>
      rw [processLine_step DEFAULT_PATTERNS st line r hl hE]
      by_cases hch : changedFrom (tableFind st (r.name, r.instrument)) r = true
      · rw [if_pos hch]
        have hfind := tableFind_tableInsert_self st (r.name, r.instrument) r
        rw [processLine_step DEFAULT_PATTERNS _ line r hl hE, hfind,
          changedFrom_self, if_neg (by simp)]
        exact ⟨rfl, rfl⟩
      · rw [if_neg hch]
        rw [processLine_step DEFAULT_PATTERNS st line r hl hE, if_neg hch]
        exact ⟨rfl, rfl⟩

/-- C4 counterexample: on the empty table and the non-status line
`"hello"`, processing the identical line twice produces zero change
events and zero snapshot writes, not exactly one. -/
theorem C4_twice_zero_events_counterexample :
    (processLine DEFAULT_PATTERNS [] [] "hello").2 = false ∧
    (processLine DEFAULT_PATTERNS []
      (processLine DEFAULT_PATTERNS [] [] "hello").1 "hello").2 = false := by
  refine ⟨by decide, by decide⟩

/-- C5 (amended): a line matched by some enable-pattern always parses with
`enabled = true`; a line matched by some disable-pattern parses with
`enabled = false` provided no enable-pattern matches it — the enable loop
runs first, so a line matching patterns of both polarities is classified
as enabled. -/
theorem C5_polarity :
    ∀ (line : String) (ps : PatternSet),
      ((∃ r ∈ ps.enabled, (reSearch r (pyLower line).toList).isSome = true) →
        (parse_with_patterns line ps).1 = true ∧
        (parse_with_patterns line ps).2.enabled = true) ∧
      ((∀ r ∈ ps.enabled, reSearch r (pyLower line).toList = none) →
       (∃ r ∈ ps.disabled, (reSearch r (pyLower line).toList).isSome = true) →
        (parse_with_patterns line ps).1 = true ∧
        (parse_with_patterns line ps).2.enabled = false) := by
  intro line ps
  constructor
  · rintro ⟨r, hr, hm⟩
    have hsome := tryPatterns_isSome_of_match true (pyLower line).toList ps.enabled r hr hm
    obtain ⟨st, hst⟩ := Option.isSome_iff_exists.mp hsome
    have hpol := tryPatterns_pol true _ ps.enabled st hst
    simp only [parse_with_patterns, hst]
    exact ⟨trivial, hpol⟩
  · rintro hnone ⟨r, hr, hm⟩
    have hennone := tryPatterns_none_of_all true (pyLower line).toList ps.enabled hnone
    have hsome := tryPatterns_isSome_of_match false (pyLower line).toList ps.disabled r hr hm
    obtain ⟨st, hst⟩ := Option.isSome_iff_exists.mp hsome
    have hpol := tryPatterns_pol false _ ps.disabled st hst
    simp only [parse_with_patterns, hennone, hst]
    exact ⟨trivial, hpol⟩

theorem C5_polarity_witness :
    (parse_with_patterns fooLine DEFAULT_PATTERNS).1 = true ∧
    (parse_with_patterns fooLine DEFAULT_PATTERNS).2.enabled = true :=
  (C5_polarity fooLine DEFAULT_PATTERNS).1
    ⟨patE1, by simp [DEFAULT_PATTERNS], by decide⟩

/-- C5 counterexample: `c5Line` is matched by disable pattern 5 (a member
of the default disable list), yet `parse_with_patterns` returns
`enabled = true` for it, refuting "for all lines matching a
disable-pattern the produced record has enabled = false". -/
theorem C5_disable_match_but_enabled :
    (patD5 ∈ DEFAULT_PATTERNS.disabled) ∧
    (reSearch patD5 (pyLower c5Line).toList).isSome = true ∧
    (parse_with_patterns c5Line DEFAULT_PATTERNS).1 = true ∧
    (parse_with_patterns c5Line DEFAULT_PATTERNS).2.enabled = true := by
  refine ⟨?_, by decide, by decide, by decide⟩
  simp [DEFAULT_PATTERNS]

/-- C6: `parse_with_patterns` lower-cases the line and is
first-match-wins: when enable pattern `i` matches and no earlier enable
pattern does, the result is built from pattern `i`'s captures; disable
patterns are consulted in order only when no enable pattern matches; when
nothing matches the result is `(false, {})`.  Concretely `c6Line` matches
both the strict quoted-name pattern `patE2` (name `alpha`) and the loose
fallback `patE4` (name `beta`), and the parse returns the strict
pattern's captures. -/
theorem C6_order_and_precedence :
    (∀ (line : String) (ps : PatternSet) (i : Nat) (h : i < ps.enabled.length)
        (m : RMatch),
      reSearch (ps.enabled.get ⟨i, h⟩) (pyLower line).toList = some m →
      (∀ j (hji : j < i),
        reSearch (ps.enabled.get ⟨j, Nat.lt_trans hji h⟩) (pyLower line).toList = none) →
      parse_with_patterns line ps =
        (true, statusOfMatch true (pyLower line).toList (ps.enabled.get ⟨i, h⟩) m)) ∧
    (∀ (line : String) (ps : PatternSet) (i : Nat) (h : i < ps.disabled.length)
        (m : RMatch),
      (∀ r ∈ ps.enabled, reSearch r (pyLower line).toList = none) →
      reSearch (ps.disabled.get ⟨i, h⟩) (pyLower line).toList = some m →
      (∀ j (hji : j < i),
        reSearch (ps.disabled.get ⟨j, Nat.lt_trans hji h⟩) (pyLower line).toList = none) →
      parse_with_patterns line ps =
        (true, statusOfMatch false (pyLower line).toList (ps.disabled.get ⟨i, h⟩) m)) ∧
    (∀ (line : String) (ps : PatternSet),
      (∀ r ∈ ps.enabled, reSearch r (pyLower line).toList = none) →
      (∀ r ∈ ps.disabled, reSearch r (pyLower line).toList = none) →
      parse_with_patterns line ps = (false, { enabled := false })) ∧
    ((reSearch patE2 (pyLower c6Line).toList).isSome = true ∧
     ((reSearch patE4 (pyLower c6Line).toList).map
        (fun m => mGroup (pyLower c6Line).toList m "name")) = some (some "beta") ∧
     (parse_with_patterns c6Line DEFAULT_PATTERNS).2.name = some "alpha") := by
  refine ⟨?_, ?_, ?_, by decide, by decide, by decide⟩
  · intro line ps i h m hm hj
    have hfirst := tryPatterns_first true (pyLower line).toList ps.enabled i h m hm hj
    simp only [parse_with_patterns, hfirst]
  · intro line ps i h m hnone hm hj
    have he := tryPatterns_none_of_all true (pyLower line).toList ps.enabled hnone
    have hd := tryPatterns_first false (pyLower line).toList ps.disabled i h m hm hj
    simp only [parse_with_patterns, he, hd]
  · intro line ps hen hdis
    have he := tryPatterns_none_of_all true (pyLower line).toList ps.enabled hen
    have hd := tryPatterns_none_of_all false (pyLower line).toList ps.disabled hdis
    simp only [parse_with_patterns, he, hd]

theorem C6_order_and_precedence_witness :
    parse_with_patterns "hello" DEFAULT_PATTERNS = (false, { enabled := false }) := by
  apply C6_order_and_precedence.2.2.1 "hello" DEFAULT_PATTERNS
  · intro r hr
    simp only [DEFAULT_PATTERNS, List.mem_cons, List.not_mem_nil, or_false] at hr
    rcases hr with rfl | rfl | rfl | rfl <;> decide
  · intro r hr
    simp only [DEFAULT_PATTERNS, List.mem_cons, List.not_mem_nil, or_false] at hr
    rcases hr with rfl | rfl | rfl | rfl | rfl <;> decide

/-- C7 (amended): a captured-and-stripped name containing `/` is truncated
at the first `/` when the status dict is built, so parsed names never
contain `/`; for the line whose quoted name text is `Foo/12345` the
stored name is `foo` — the matcher captures from the lower-cased line, so
the spec's expected `Foo` appears lower-cased. -/
theorem C7_slash_truncation :
    (∀ (pol : Bool) (low : List Char) (r : RE) (m : RMatch) (s : String),
      capField low r m "name" = some s → s.toList.contains '/' = true →
      (statusOfMatch pol low r m).name = some (pyNormName s)) ∧
    (∀ (line : String) (ps : PatternSet) (n : String),
      (parse_with_patterns line ps).2.name = some n →
      n.toList.contains '/' = false) ∧
    ((parse_with_patterns fooLine DEFAULT_PATTERNS).2.name = some "foo" ∧
     (extract_record fooLine DEFAULT_PATTERNS).map (fun r => r.name) = some "foo" ∧
     pyNormName "foo/12345" = "foo") := by
  refine ⟨?_, fun line ps n h => parse_name_no_slash line ps n h,
          by decide, by decide, by decide⟩
  intro pol low r m s hs hslash
  show normNameField (capField low r m "name") = some (pyNormName s)
  rw [hs]
  unfold normNameField
  dsimp only
  rw [if_pos hslash]

theorem C7_slash_truncation_witness :
    ("foo".toList.contains '/') = false :=
  C7_slash_truncation.2.1 fooLine DEFAULT_PATTERNS "foo" (by decide)

/-- C7 counterexample: the stored name for the `Foo/12345` line is `foo`,
not the claim's `Foo`. -/
theorem C7_not_Foo_counterexample :
    (extract_record fooLine DEFAULT_PATTERNS).map (fun r => r.name) = some "foo" ∧
    ¬((extract_record fooLine DEFAULT_PATTERNS).map (fun r => r.name) = some "Foo") := by
  refine ⟨by decide, by decide⟩
